import Mathlib

/-!
# Certificate Transparency command-line client (`client/ct.cc`)

A shallow embedding of the command-line client of the certificate-transparency
repository: the commands `connect`, `upload`, `audit`, `certificate`, `authz`,
`configure_proof` and `diagnose_cert` of `src/client/ct.cc`, together with the
inline members of `SSLClient` from `cpp/client/ssl_client.h`.

Conventions of the embedding.

* A C++ `std::string` holding binary data is a list of byte values (`Bytes`);
  flag values and file names are Lean strings.
* A failed `CHECK`/`PCHECK` aborts the process; a function that can abort
  returns an `Option` (or a record with an optional result) and `none` is the
  abort.
* Collaborators whose code is not part of `ct.cc` (the log client, the log
  verifier, the TLS client, protobuf serialisation, OpenSSL) are taken as
  parameters, gathered in the structure `World`.
* Logging (`LOG`, `VLOG`) has no effect on results and is left out.
-/

namespace CertTrans

/-- Binary contents of a C++ `std::string`: a sequence of byte values. -/
abbrev Bytes := List Nat

/-- Bytes of an ASCII text. -/
def ascii (s : String) : Bytes := s.toList.map Char.toNat

/-! ## Command-line flags -/

/-- The gflags of `ct.cc` (`DEFINE_string`, `DEFINE_int32`, `DEFINE_bool`). -/
structure Flags where
  ssl_client_trusted_cert_dir : String
  ct_server_public_key : String
  ssl_server : String
  ssl_server_port : Int
  ct_server_submission : String
  ct_server : String
  ct_server_port : Int
  ct_server_response_out : String
  precert : Bool
  sct_token : String
  ssl_client_ct_data_in : String
  ssl_client_ct_data_out : String
  certificate_out : String
  authz_out : String
  extensions_config_out : String
  ssl_client_require_sct : Bool
  ssl_client_expect_handshake_failure : Bool
  certificate_in : String

/-- The default values given in the `DEFINE_*` lines. -/
def Flags.defaults : Flags where
  ssl_client_trusted_cert_dir := ""
  ct_server_public_key := ""
  ssl_server := ""
  ssl_server_port := 0
  ct_server_submission := ""
  ct_server := ""
  ct_server_port := 0
  ct_server_response_out := ""
  precert := false
  sct_token := ""
  ssl_client_ct_data_in := ""
  ssl_client_ct_data_out := ""
  certificate_out := ""
  authz_out := ""
  extensions_config_out := ""
  ssl_client_require_sct := true
  ssl_client_expect_handshake_failure := false
  certificate_in := ""

/-! ## Files -/

/-- The files the process can see: `contents path` is what
`util::ReadBinaryFile` reads (`none` when the read fails), `writable path`
tells whether opening `path` for writing succeeds. -/
structure FileSystem where
  contents : String → Option Bytes
  writable : String → Bool

/-- The call `util::ReadBinaryFile(path, &contents)`: `none` is the `false` return. -/
def FileSystem.ReadBinaryFile (fs : FileSystem) (path : String) : Option Bytes :=
  fs.contents path

/-- Replace the contents of `path` by `data` (a stream opened with
`std::ios::out`, or a descriptor opened with `O_TRUNC`, then written and closed). -/
def FileSystem.write (fs : FileSystem) (path : String) (data : Bytes) : FileSystem :=
  { fs with contents := fun p => if p = path then some data else fs.contents p }

/-- Append `data` to `path` (a stream opened with `std::ios::app`); a file
that does not exist yet is created. -/
def FileSystem.append (fs : FileSystem) (path : String) (data : Bytes) : FileSystem :=
  fs.write path ((fs.contents path).getD [] ++ data)

/-! ## Protocol messages (`proto/ct.pb.h`) -/

/-- Modelled from the spec: the message `LogID` of `proto/ct.proto`, which is
not among the sources; the code reads its `key_id`. -/
structure LogID where
  key_id : Bytes
deriving DecidableEq, Repr

/-- Modelled from the spec: `SignedCertificateTimestamp` of `proto/ct.proto`,
which is not among the sources: version, log key-id, timestamp, extensions and
signature. -/
structure SignedCertificateTimestamp where
  version : Nat
  id : LogID
  timestamp : Nat
  extension : Bytes
  signature : Bytes
deriving DecidableEq, Repr

/-- Modelled from the spec: the two entry types of a `LogEntry`. -/
inductive LogEntryType where
  | X509_ENTRY
  | PRECERT_ENTRY
deriving DecidableEq, Repr

/-- Modelled from the spec: `LogEntry` of `proto/ct.proto`, which is not among
the sources: entry type and leaf certificate bytes. -/
structure LogEntry where
  type : LogEntryType
  leaf_certificate : Bytes
deriving DecidableEq, Repr

/-- Modelled from the spec: `MerkleAuditProof` of `proto/ct.proto`, which is not
among the sources: leaf index, tree size and the sibling hashes from leaf to
root. -/
structure MerkleAuditProof where
  leaf_index : Nat
  tree_size : Nat
  path_node : List Bytes
deriving DecidableEq, Repr

/-- Modelled from the spec: `SSLClientCTData.SCTInfo` of `proto/ct.proto`, which
is not among the sources: an SCT with the Merkle leaf hash computed when it was
verified. -/
structure AttachedSctInfo where
  sct : SignedCertificateTimestamp
  merkle_leaf_hash : Bytes
deriving DecidableEq, Repr

/-- Modelled from the spec: `SSLClientCTData` of `proto/ct.proto`, which is not
among the sources: the optional reconstructed entry and the repeated
`attached_sct_info`. -/
structure SSLClientCTData where
  reconstructed_entry : Option LogEntry
  attached_sct_info : List AttachedSctInfo
deriving DecidableEq, Repr

/-- The accessor `has_reconstructed_entry()`. -/
def SSLClientCTData.has_reconstructed_entry (d : SSLClientCTData) : Bool :=
  d.reconstructed_entry.isSome

/-- The accessor `attached_sct_info_size()`. -/
def SSLClientCTData.attached_sct_info_size (d : SSLClientCTData) : Nat :=
  d.attached_sct_info.length

/-! ## Collaborators -/

/-- Modelled from the spec: `LogVerifier::VerifyResult` is declared in
`log/log_verifier.h`, which is not among the sources. `ct.cc` names only
`VERIFY_OK`; every other verdict is kept as an error with its code. -/
inductive VerifyResult where
  | VERIFY_OK
  | VERIFY_ERROR (code : Nat)
deriving DecidableEq, Repr

/-- The members of `LogVerifier` that `ct.cc` calls. The verifier is fixed
once constructed, so verification is a function of its arguments. -/
structure LogVerifier where
  KeyID : Bytes
  VerifyMerkleAuditProof :
    LogEntry → SignedCertificateTimestamp → MerkleAuditProof → VerifyResult
  VerifySignedCertificateTimestamp :
    LogEntry → SignedCertificateTimestamp → VerifyResult

/-- The members of `LogClient` that `ct.cc` calls, for one client object.

* `Connect` is the result of the single call `client.Connect()`.
* `UploadSubmission contents precert` is the token of the single call
  `client.UploadSubmission(contents, precert, &sct)`, `none` for `false`.
* `QueryAuditProof sent leaf_hash` is the proof returned by
  `client.QueryAuditProof(leaf_hash, &proof)`, `none` for `false`, when `sent`
  lists the leaf hashes already queried on this connection, oldest first: the
  answer of the log server may depend on what went on before. -/
structure LogClient where
  Connect : Bool
  UploadSubmission : Bytes → Bool → Option SignedCertificateTimestamp
  QueryAuditProof : List Bytes → Bytes → Option MerkleAuditProof

/-- The enum `SSLClient::HandshakeResult` of `ssl_client.h`. -/
inductive HandshakeResult where
  | OK
  | HANDSHAKE_FAILED
  | SERVER_UNAVAILABLE
deriving DecidableEq, Repr

/-- Numeric value of a `HandshakeResult` enumerator. -/
def HandshakeResult.toInt : HandshakeResult → Int
  | .OK => 0
  | .HANDSHAKE_FAILED => 1
  | .SERVER_UNAVAILABLE => 2

/-- The class `SSLClient` as far as `ct.cc` uses it. `handshake strict` stands
for the private `SSLConnect(bool strict)`, defined in `ssl_client.cc`: it gives
the result of the handshake and the CT data left in `verify_args_.ct_data`.
`ct_data` is that member. -/
structure SSLClient where
  handshake : Bool → HandshakeResult × SSLClientCTData
  ct_data : SSLClientCTData

/-- The private `SSLConnect(bool strict)`. -/
def SSLClient.SSLConnectBool (c : SSLClient) (strict : Bool) : HandshakeResult × SSLClient :=
  ((c.handshake strict).1, { c with ct_data := (c.handshake strict).2 })

/-- The inline `SSLConnect()` of `ssl_client.h`: `SSLConnect(false)`. -/
def SSLClient.SSLConnect (c : SSLClient) : HandshakeResult × SSLClient :=
  c.SSLConnectBool false

/-- The inline `SSLConnectStrict()` of `ssl_client.h`: `SSLConnect(true)`. -/
def SSLClient.SSLConnectStrict (c : SSLClient) : HandshakeResult × SSLClient :=
  c.SSLConnectBool true

/-- The member `GetSSLClientCTData(&data)`. -/
def SSLClient.GetSSLClientCTData (c : SSLClient) : SSLClientCTData :=
  c.ct_data

/-! ## OpenSSL objects -/

/-- An OpenSSL `ASN1_OBJECT`: an object identifier, as its arcs. -/
structure ASN1_OBJECT where
  arcs : List Nat
deriving DecidableEq, Repr

/-- An OpenSSL `ASN1_OCTET_STRING`: its `data`; its `length` is the length of the list. -/
structure ASN1_OCTET_STRING where
  data : Bytes
deriving DecidableEq, Repr

/-- An OpenSSL `X509_EXTENSION`: object, critical mark and value. -/
structure X509_EXTENSION where
  object : Option ASN1_OBJECT
  critical : Int
  value : ASN1_OCTET_STRING
deriving DecidableEq, Repr

/-- An OpenSSL `X509` certificate, with the members `MakeCert` sets. -/
structure X509 where
  version : Int
  serialNumber : Nat
  signature_algorithm : Option String
  notBefore : Int
  notAfter : Int
  issuer : List (String × Bytes)
  subject : List (String × Bytes)
  public_key : Option (Nat × Nat)
  extensions : List X509_EXTENSION
deriving DecidableEq, Repr

/-- The certificate returned by `X509_new()`. -/
def X509_new : X509 where
  version := 0
  serialNumber := 0
  signature_algorithm := none
  notBefore := 0
  notAfter := 0
  issuer := []
  subject := []
  public_key := none
  extensions := []

/-! ## The world outside `ct.cc` -/

/-- Everything `ct.cc` calls and does not define.

* `PEM_read_PUBKEY`: the public key read from the bytes of a PEM file and
  wrapped into a `LogVerifier` (`new LogVerifier(new LogSigVerifier(pkey), ...)`),
  `none` when the file holds no valid key.
* `LogClient server port`, `SSLClient server port ca_dir verifier`: the client
  objects the constructors build.
* `ParseFromString`, `SerializeToString`: protobuf coding of `SSLClientCTData`.
* `SerializeSCT`: `Serializer::SerializeSCT`, `none` unless it returns `OK`.
* `sct_length_bytes`: the number of bytes of a length field in a serialised SCT list.
* `ExtensionObject`: `Cert::ExtensionObject`, `none` for `NULL`.
* `kProofExtensionOID`, `kEmbeddedProofExtensionOID`: the constants of `Cert`.
* `BN_rand`, `now`: the random serial number and the clock.
* `i2d_X509`: DER encoding of a certificate, `none` on failure.
* `PEM_read_X509`: the certificate a `Cert` loads from PEM text, `none` when
  `IsLoaded()` is false.
* `HexString`: `util::HexString`, the hexadecimal text of a byte string. -/
structure World where
  PEM_read_PUBKEY : Bytes → Option LogVerifier
  LogClient : String → Int → LogClient
  SSLClient : String → Int → String → LogVerifier → SSLClient
  ParseFromString : Bytes → Option SSLClientCTData
  SerializeToString : SSLClientCTData → Option Bytes
  SerializeSCT : SignedCertificateTimestamp → Option Bytes
  sct_length_bytes : Nat
  ExtensionObject : String → Option ASN1_OBJECT
  kProofExtensionOID : String
  kEmbeddedProofExtensionOID : String
  BN_rand : Nat
  now : Int
  i2d_X509 : X509 → Option Bytes
  PEM_read_X509 : Bytes → Option X509
  HexString : Bytes → Bytes

/-- The function `GetLogVerifierFromFlags`: `none` when the `PCHECK` on `fopen` or the
`CHECK_NE` on the key fails. -/
def GetLogVerifierFromFlags (w : World) (flags : Flags) (fs : FileSystem) : Option LogVerifier :=
  let log_server_key := flags.ct_server_public_key
  match fs.contents log_server_key with
  | none => none
  | some pem => w.PEM_read_PUBKEY pem

/-! ## `audit` -/

/-- The enum `AuditResult`. -/
inductive AuditResult where
  | PROOF_OK
  | PROOF_NOT_FOUND
  | CT_SERVER_UNAVAILABLE
deriving DecidableEq, Repr

/-- Numeric value of an `AuditResult` enumerator. -/
def AuditResult.toInt : AuditResult → Int
  | .PROOF_OK => 0
  | .PROOF_NOT_FOUND => 1
  | .CT_SERVER_UNAVAILABLE => 2

/-- Calls `Audit` makes on the log client and the verifier, in the order made. -/
inductive Event where
  | Connect
  | QueryAuditProof (merkle_leaf_hash : Bytes)
  | VerifyMerkleAuditProof (entry : LogEntry) (sct : SignedCertificateTimestamp)
      (proof : MerkleAuditProof)
deriving DecidableEq, Repr

/-- Outcome of a run of `Audit`: the value returned (`none` when a `CHECK`
aborted the process) and the calls made until then. -/
structure AuditRun where
  result : Option AuditResult
  events : List Event
deriving DecidableEq, Repr

/-- The `for` loop of `Audit` over the `attached_sct_info` still to visit.
`sent` lists the leaf hashes queried so far and `audit_result` is the local
variable of that name; the value is its final state with the calls made. -/
def auditLoop (verifier : LogVerifier) (client : LogClient) (key_id : Bytes) (entry : LogEntry) :
    List AttachedSctInfo → List Bytes → AuditResult → AuditResult × List Event
  | [], _, audit_result => (audit_result, [])
  | info :: rest, sent, audit_result =>
    let sct_id := info.sct.id.key_id
    if sct_id ≠ key_id then
      auditLoop verifier client key_id entry rest sent audit_result
    else
      match client.QueryAuditProof sent info.merkle_leaf_hash with
      | none =>
        let r := auditLoop verifier client key_id entry rest
          (sent ++ [info.merkle_leaf_hash]) audit_result
        (r.1, Event.QueryAuditProof info.merkle_leaf_hash :: r.2)
      | some proof =>
        let res := verifier.VerifyMerkleAuditProof entry info.sct proof
        if res ≠ VerifyResult.VERIFY_OK then
          let r := auditLoop verifier client key_id entry rest
            (sent ++ [info.merkle_leaf_hash]) audit_result
          (r.1, Event.QueryAuditProof info.merkle_leaf_hash ::
            Event.VerifyMerkleAuditProof entry info.sct proof :: r.2)
        else
          let r := auditLoop verifier client key_id entry rest
            (sent ++ [info.merkle_leaf_hash]) AuditResult.PROOF_OK
          (r.1, Event.QueryAuditProof info.merkle_leaf_hash ::
            Event.VerifyMerkleAuditProof entry info.sct proof :: r.2)

/-- The function `Audit`. -/
def Audit (w : World) (flags : Flags) (fs : FileSystem) : AuditRun :=
  match fs.ReadBinaryFile flags.ssl_client_ct_data_in with
  | none => { result := none, events := [] }
  | some serialized_data =>
    match w.ParseFromString serialized_data with
    | none => { result := none, events := [] }
    | some ct_data =>
      match ct_data.reconstructed_entry with
      | none => { result := none, events := [] }
      | some entry =>
        if ¬ (ct_data.attached_sct_info_size > 0) then { result := none, events := [] }
        else
          match GetLogVerifierFromFlags w flags fs with
          | none => { result := none, events := [] }
          | some verifier =>
            let key_id := verifier.KeyID
            let client := w.LogClient flags.ct_server flags.ct_server_port
            if ¬ client.Connect then
              { result := some AuditResult.CT_SERVER_UNAVAILABLE, events := [Event.Connect] }
            else
              let r := auditLoop verifier client key_id entry ct_data.attached_sct_info []
                AuditResult.PROOF_NOT_FOUND
              { result := some r.1, events := Event.Connect :: r.2 }

/-- Leaf hashes `Audit` has queried before it reaches position `i` of the
`attached_sct_info`: those of the earlier entries whose key-id is the verifier's. -/
def earlierQueries (key_id : Bytes) (infos : List AttachedSctInfo) (i : Nat) : List Bytes :=
  ((infos.take i).filter (fun info => info.sct.id.key_id = key_id)).map
    (fun info => info.merkle_leaf_hash)

/-- An entry of the list that the loop audits with success: its key-id is the
verifier's, the query made for it returns a proof, and the proof verifies. -/
def AuditedOk (verifier : LogVerifier) (client : LogClient) (key_id : Bytes) (entry : LogEntry)
    (infos : List AttachedSctInfo) (sent : List Bytes) : Prop :=
  ∃ (i : Nat) (info : AttachedSctInfo) (proof : MerkleAuditProof),
    infos[i]? = some info ∧ info.sct.id.key_id = key_id ∧
    client.QueryAuditProof (sent ++ earlierQueries key_id infos i) info.merkle_leaf_hash
      = some proof ∧
    verifier.VerifyMerkleAuditProof entry info.sct proof = VerifyResult.VERIFY_OK


/-! ## `connect` -/

/-- The function `Connect`: the value returned (`none` when a `CHECK` aborted
the process) and the files afterwards. -/
def Connect (w : World) (flags : Flags) (fs : FileSystem) : Option HandshakeResult × FileSystem :=
  match GetLogVerifierFromFlags w flags fs with
  | none => (none, fs)
  | some verifier =>
    let client := w.SSLClient flags.ssl_server flags.ssl_server_port
      flags.ssl_client_trusted_cert_dir verifier
    let connected :=
      if flags.ssl_client_require_sct then client.SSLConnectStrict else client.SSLConnect
    let result := connected.1
    let client := connected.2
    if result = HandshakeResult.OK then
      let ct_data := client.GetSSLClientCTData
      if ct_data.attached_sct_info_size > 0 then
        let ct_data_out_file := flags.ssl_client_ct_data_out
        if ct_data_out_file ≠ "" then
          if ¬ fs.writable ct_data_out_file then (none, fs)
          else
            let opened := fs.write ct_data_out_file []
            match w.SerializeToString ct_data with
            | none => (none, opened)
            | some serialized_data => (some result, opened.write ct_data_out_file serialized_data)
        else (some result, fs)
      else (some result, fs)
    else (some result, fs)

/-! ## `upload` -/

/-- The function `Upload`: the value returned (`none` when a `PCHECK` aborted
the process) and the files afterwards. -/
def Upload (w : World) (flags : Flags) (fs : FileSystem) : Option Int × FileSystem :=
  let submission_file := flags.ct_server_submission
  match fs.ReadBinaryFile submission_file with
  | none => (none, fs)
  | some contents =>
    let client := w.LogClient flags.ct_server flags.ct_server_port
    if ¬ client.Connect then (some 2, fs)
    else
      match client.UploadSubmission contents flags.precert with
      | none => (some 1, fs)
      | some sct =>
        let record_response := flags.ct_server_response_out ≠ ""
        if record_response then
          let response_file := flags.ct_server_response_out
          if ¬ fs.writable response_file then (none, fs)
          else
            let opened := fs.write response_file []
            match w.SerializeSCT sct with
            | some proof => (some 0, opened.write response_file proof)
            | none => (some 1, opened)
        else (some 0, fs)

/-! ## Byte-level coding -/

/-- Big-endian representation of `n` on `w` bytes (the low `w` bytes of `n`). -/
def encodeBE : Nat → Nat → Bytes
  | 0, _ => []
  | w + 1, n => (n / 256 ^ w) % 256 :: encodeBE w n

/-- Value of a big-endian byte sequence. -/
def decodeBE (bs : Bytes) : Nat :=
  bs.foldl (fun acc b => acc * 256 + b) 0

/-- The message `SignedCertificateTimestampList`: `repeated bytes sct_list`. -/
structure SignedCertificateTimestampList where
  sct_list : List Bytes
deriving DecidableEq, Repr

/-- The member `add_sct_list(value)`. -/
def SignedCertificateTimestampList.add_sct_list (l : SignedCertificateTimestampList)
    (value : Bytes) : SignedCertificateTimestampList :=
  { sct_list := l.sct_list ++ [value] }

/-- Modelled from the spec: `Serializer::SerializeSCTList` of `proto/serializer.cc`,
which is not among the sources. The list is a non-empty sequence of
length-prefixed serialised SCTs, itself length-prefixed, lengths big-endian on
`w` bytes. `none` stands for every result other than `Serializer::OK`: an empty
list, or a length that does not fit its field. -/
def SerializeSCTList (w : Nat) (sct_list : SignedCertificateTimestampList) : Option Bytes :=
  let body := (sct_list.sct_list.map (fun sct => encodeBE w sct.length ++ sct)).flatten
  if sct_list.sct_list = [] then none
  else if sct_list.sct_list.any (fun sct => decide (256 ^ w ≤ sct.length)) then none
  else if 256 ^ w ≤ body.length then none
  else some (encodeBE w body.length ++ body)

/-- Modelled from the spec: the elements of a serialised SCT list, read from the
bytes that follow the outer length, with one unit of `fuel` per element. A
length field cut short or a declared length beyond the bytes left is malformed
(`none`). -/
def readSCTListElements (w : Nat) : Nat → Bytes → Option (List Bytes)
  | _, [] => some []
  | 0, _ :: _ => none
  | fuel + 1, b :: bs =>
    if (b :: bs).length < w then none
    else
      let n := decodeBE ((b :: bs).take w)
      let rest := (b :: bs).drop w
      if rest.length < n then none
      else (readSCTListElements w fuel (rest.drop n)).map (fun scts => rest.take n :: scts)

/-- Modelled from the spec: `Deserializer::DeserializeSCTList` of
`proto/serializer.cc`, which is not among the sources. `none` stands for every
result other than `Deserializer::OK`: a truncated length field, a declared
length exceeding the bytes left, trailing bytes after the declared list, and a
list of zero elements are all rejected. -/
def DeserializeSCTList (w : Nat) (bytes : Bytes) : Option SignedCertificateTimestampList :=
  if bytes.length < w then none
  else
    let n := decodeBE (bytes.take w)
    let body := bytes.drop w
    if body.length ≠ n then none
    else
      match readSCTListElements w body.length body with
      | none => none
      | some [] => none
      | some (sct :: scts) => some { sct_list := sct :: scts }

/-- The function `SCTToList`: `none` when the `CHECK_EQ` on the serialiser fails. -/
def SCTToList (w : World) (serialized_sct : Bytes) : Option Bytes :=
  let sct_list : SignedCertificateTimestampList := { sct_list := [] }
  let sct_list := sct_list.add_sct_list serialized_sct
  SerializeSCTList w.sct_length_bytes sct_list

/-! ## DER octet strings (OpenSSL) -/

/-- Value of a C `int` holding the low 32 bits of `n`. -/
def toInt32 (n : Nat) : Int :=
  if n % 2 ^ 32 < 2 ^ 31 then (n % 2 ^ 32 : Nat) else ((n % 2 ^ 32 : Nat) : Int) - 2 ^ 32

/-- Number of bytes of a length: the loop `for (i = 0; l > 0; i++) l >>= 8` of
`asn1_put_length`, which an `int` leaves after at most four rounds. -/
def lengthBytes : Nat → Nat → Nat
  | 0, _ => 0
  | rounds + 1, l => if l > 0 then lengthBytes rounds (l / 256) + 1 else 0

/-- The length octets of DER (`asn1_put_length`): short form up to 127, else
the count of length bytes with the high bit set, then the length big-endian. -/
def asn1_put_length (length : Nat) : Bytes :=
  if length ≤ 127 then [length]
  else
    let i := lengthBytes 4 length
    (i ||| 0x80) :: encodeBE i length

/-- The bytes `i2d_ASN1_OCTET_STRING` writes: tag 4, length octets, contents. -/
def i2d_ASN1_OCTET_STRING (a : ASN1_OCTET_STRING) : Bytes :=
  4 :: (asn1_put_length a.data.length ++ a.data)

/-- The `int` that `i2d_ASN1_OCTET_STRING` returns: the number of bytes. -/
def i2d_ASN1_OCTET_STRING_len (a : ASN1_OCTET_STRING) : Int :=
  toInt32 (i2d_ASN1_OCTET_STRING a).length

/-- Modelled from the spec: reading DER length octets, the inverse of
`asn1_put_length`: the length and the bytes after it. -/
def asn1_get_length : Bytes → Option (Nat × Bytes)
  | [] => none
  | b :: rest =>
    if b < 128 then some (b, rest)
    else if rest.length < b - 128 then none
    else some (decodeBE (rest.take (b - 128)), rest.drop (b - 128))

/-- Modelled from the spec: `d2i_ASN1_OCTET_STRING` on a whole buffer, the
inverse of `i2d_ASN1_OCTET_STRING`. Anything but one octet string filling the
buffer exactly is rejected. -/
def d2i_ASN1_OCTET_STRING : Bytes → Option ASN1_OCTET_STRING
  | [] => none
  | tag :: rest =>
    if tag ≠ 4 then none
    else
      match asn1_get_length rest with
      | none => none
      | some (n, content) => if content.length ≠ n then none else some { data := content }

/-- The result of `ASN1_OCTET_STRING_new()`. -/
def ASN1_OCTET_STRING_new : ASN1_OCTET_STRING := { data := [] }

/-- The call `ASN1_OCTET_STRING_set(str, data, len)`: the string holds the
first `len` bytes of `data`; for a negative `len` OpenSSL measures `data` with
`strlen`, up to its first zero byte. -/
def ASN1_OCTET_STRING_set (_str : ASN1_OCTET_STRING) (data : Bytes) (len : Int) :
    ASN1_OCTET_STRING :=
  if len < 0 then { data := data.takeWhile (fun b => decide (b ≠ 0)) }
  else { data := data.take len.toNat }

/-- The result of `X509_EXTENSION_new()`. -/
def X509_EXTENSION_new : X509_EXTENSION :=
  { object := none, critical := -1, value := ASN1_OCTET_STRING_new }

/-- The call `X509_EXTENSION_set_object(ex, obj)`. -/
def X509_EXTENSION_set_object (ex : X509_EXTENSION) (obj : ASN1_OBJECT) : X509_EXTENSION :=
  { ex with object := some obj }

/-- The call `X509_EXTENSION_set_critical(ex, crit)`: `ex->critical = crit ? 0xFF : -1`. -/
def X509_EXTENSION_set_critical (ex : X509_EXTENSION) (crit : Int) : X509_EXTENSION :=
  { ex with critical := if crit ≠ 0 then 0xFF else -1 }

/-- The call `X509_EXTENSION_get_critical(ex)`: 1 when `ex->critical > 0`, else 0. -/
def X509_EXTENSION_get_critical (ex : X509_EXTENSION) : Int :=
  if ex.critical > 0 then 1 else 0

/-- The call `X509_EXTENSION_set_data(ex, data)`. -/
def X509_EXTENSION_set_data (ex : X509_EXTENSION) (data : ASN1_OCTET_STRING) : X509_EXTENSION :=
  { ex with value := data }

/-- The call `X509_add_ext(x, ex, loc)`: insert at `loc`, at the end when `loc`
is negative or beyond the end. -/
def X509_add_ext (x : X509) (ex : X509_EXTENSION) (loc : Int) : X509 :=
  if loc < 0 ∨ loc > x.extensions.length then { x with extensions := x.extensions ++ [ex] }
  else { x with extensions := x.extensions.take loc.toNat ++ ex :: x.extensions.drop loc.toNat }

/-- The DER form of the value of an extension as it stands in a certificate:
the `extnValue` octet string. -/
def X509_EXTENSION.extnValue (ex : X509_EXTENSION) : Bytes :=
  i2d_ASN1_OCTET_STRING ex.value

/-- The function `AddOctetExtension`; `data` is the buffer of `data_len` bytes.
The value is `none` when one of its `CHECK`s fails; the allocations and the
setters of OpenSSL succeed. -/
def AddOctetExtension (w : World) (cert : X509) (oid : String) (data : Bytes) (critical : Int) :
    Option X509 :=
  let data_len : Int := toInt32 data.length
  match w.ExtensionObject oid with
  | none => none
  | some obj =>
    let ext := X509_EXTENSION_new
    let ext := X509_EXTENSION_set_object ext obj
    let ext := X509_EXTENSION_set_critical ext critical
    let inner := ASN1_OCTET_STRING_new
    let inner := ASN1_OCTET_STRING_set inner data data_len
    let buf_len := i2d_ASN1_OCTET_STRING_len inner
    if ¬ (buf_len > 0) then none
    else
      let buf := i2d_ASN1_OCTET_STRING inner
      if ¬ (buf_len = toInt32 buf.length) then none
      else
        let asn1_data := ASN1_OCTET_STRING_new
        let asn1_data := ASN1_OCTET_STRING_set asn1_data buf buf_len
        let ext := X509_EXTENSION_set_data ext asn1_data
        some (X509_add_ext cert ext (-1))

/-- Outcome of reading an octet-string extension. -/
inductive ExtensionData where
  | bytes (payload : Bytes)
  | NotPresent
  | Malformed
deriving DecidableEq, Repr

/-- Modelled from the spec: `Cert::HasExtension` of `log/cert.cc`, which is not
among the sources: whether the certificate carries an extension under the OID. -/
def HasExtension (w : World) (cert : X509) (oid : String) : Bool :=
  match w.ExtensionObject oid with
  | none => false
  | some obj => cert.extensions.any (fun ex => decide (ex.object = some obj))

/-- Modelled from the spec: `Cert::OctetStringExtensionData` of `log/cert.cc`,
which is not among the sources: the inverse of `AddOctetExtension`. It takes
the extension found under the OID and unwraps the octet string its value
holds; a value that is not exactly one DER octet string is `Malformed`, a
certificate without the extension gives `NotPresent`. The C++ member returns
`true` with the payload in the first case and `false` in the other two. -/
def OctetStringExtensionData (w : World) (cert : X509) (oid : String) : ExtensionData :=
  match w.ExtensionObject oid with
  | none => ExtensionData.NotPresent
  | some obj =>
    match cert.extensions.find? (fun ex => decide (ex.object = some obj)) with
    | none => ExtensionData.NotPresent
    | some ex =>
      match d2i_ASN1_OCTET_STRING ex.value.data with
      | none => ExtensionData.Malformed
      | some octets => ExtensionData.bytes octets.data

/-! ## `certificate` -/

/-- The function `MakeCert`: `some ()` when it returns (`none` when a `CHECK`
aborted the process) and the files afterwards. -/
def MakeCert (w : World) (flags : Flags) (fs : FileSystem) : Option Unit × FileSystem :=
  match fs.ReadBinaryFile flags.sct_token with
  | none => (none, fs)
  | some sct =>
    let cert_file := flags.certificate_out
    if ¬ fs.writable cert_file then (none, fs)
    else
      let opened := fs.write cert_file []
      let x := X509_new
      let x := { x with version := 2 }
      let x := { x with serialNumber := w.BN_rand % 2 ^ 128 }
      let x := { x with signature_algorithm := some "sha1WithRSAEncryption" }
      let x := { x with notBefore := w.now + 0 }
      let x := { x with notAfter := w.now + 1 }
      let x := { x with issuer := [("commonName", ascii "Test")] }
      let x := { x with subject := [("commonName", ascii "tseT")] }
      let x := { x with public_key := some (decodeBE [3], decodeBE [3]) }
      match SCTToList w sct with
      | none => (none, opened)
      | some serialized_sct_list =>
        match AddOctetExtension w x w.kProofExtensionOID serialized_sct_list 1 with
        | none => (none, opened)
        | some x =>
          match w.i2d_X509 x with
          | none => (none, opened)
          | some der => (some (), opened.write cert_file der)

/-! ## `configure_proof` -/

/-- The function `WriteProofToConfig`: `some ()` when it returns (`none` when a
`CHECK` aborted the process) and the files afterwards. -/
def WriteProofToConfig (w : World) (flags : Flags) (fs : FileSystem) : Option Unit × FileSystem :=
  if flags.sct_token = "" then (none, fs)
  else if flags.extensions_config_out = "" then (none, fs)
  else
    match fs.ReadBinaryFile flags.sct_token with
    | none => (none, fs)
    | some sct =>
      match SCTToList w sct with
      | none => (none, fs)
      | some serialized_sct_list =>
        let conf_file := flags.extensions_config_out
        if ¬ fs.writable conf_file then (none, fs)
        else
          (some (), fs.append conf_file
            (ascii w.kEmbeddedProofExtensionOID ++ ascii "=ASN1:FORMAT:HEX,OCTETSTRING:"
              ++ w.HexString serialized_sct_list ++ ascii "\n"))

/-! ## `authz` -/

/-- The constant `kAuditProofFormat`. -/
def kAuditProofFormat : Nat := 182

/-- The function `ProofToAuthz`: `some ()` when it returns (`none` when a
`CHECK` aborted the process) and the files afterwards. The proof is read
through `proof_in` once `authz_out` has been opened. -/
def ProofToAuthz (_w : World) (flags : Flags) (fs : FileSystem) : Option Unit × FileSystem :=
  if flags.sct_token = "" then (none, fs)
  else if flags.authz_out = "" then (none, fs)
  else
    match fs.ReadBinaryFile flags.sct_token with
    | none => (none, fs)
    | some _serialized_sct =>
      if ¬ fs.writable flags.authz_out then (none, fs)
      else
        let opened := fs.write flags.authz_out []
        let buf := (opened.contents flags.sct_token).getD []
        let proof_length := buf.length
        (some (), opened.write flags.authz_out
          ([kAuditProofFormat] ++ [(proof_length / 2 ^ 8) % 256, proof_length % 256] ++ buf))

/-! ## `diagnose_cert` -/

/-- The function `DiagnoseCert`, which only logs: `some ()` when it returns,
`none` when a `CHECK` aborted the process. -/
def DiagnoseCert (w : World) (flags : Flags) (fs : FileSystem) : Option Unit :=
  let cert_file := flags.certificate_in
  if cert_file = "" then none
  else
    match fs.ReadBinaryFile cert_file with
    | none => none
    | some pem_cert =>
      match w.PEM_read_X509 pem_cert with
      | none => none
      | some cert =>
        if ¬ HasExtension w cert w.kEmbeddedProofExtensionOID then some ()
        else if flags.ct_server_public_key = "" then some ()
        else
          match GetLogVerifierFromFlags w flags fs with
          | none => none
          | some _verifier => some ()

/-! ## `main` -/

/-- The function `main`, on the arguments left once the flags are parsed
(`argv[0]` is the program): the exit code (`none` when a `CHECK` aborted the
process) and the files afterwards. -/
def main (w : World) (argv : List String) (flags : Flags) (fs : FileSystem) :
    Option Int × FileSystem :=
  let argc := argv.length
  if argc < 2 then (some 1, fs)
  else
    let cmd := argv.getD 1 ""
    let ret : Int := 0
    if cmd = "connect" then
      let want_fail := flags.ssl_client_expect_handshake_failure
      match Connect w flags fs with
      | (none, fs) => (none, fs)
      | (some result, fs) =>
        if (!want_fail && decide (result ≠ HandshakeResult.OK)) ||
            (want_fail && decide (result ≠ HandshakeResult.HANDSHAKE_FAILED)) then
          (some 1, fs)
        else (some ret, fs)
    else if cmd = "upload" then
      Upload w flags fs
    else if cmd = "audit" then
      ((Audit w flags fs).result.map AuditResult.toInt, fs)
    else if cmd = "certificate" then
      ((MakeCert w flags fs).1.map (fun _ => ret), (MakeCert w flags fs).2)
    else if cmd = "authz" then
      ((ProofToAuthz w flags fs).1.map (fun _ => ret), (ProofToAuthz w flags fs).2)
    else if cmd = "configure_proof" then
      ((WriteProofToConfig w flags fs).1.map (fun _ => ret), (WriteProofToConfig w flags fs).2)
    else if cmd = "diagnose_cert" then
      ((DiagnoseCert w flags fs).map (fun _ => ret), fs)
    else (some ret, fs)

/-! ## A sample run

A log whose key-id is `[7]`, a stored client state with three SCTs of which
only the second carries that key-id, and a log server that knows the leaf hash
of the second. -/

/-- Sample verifier: a proof verifies when its leaf index is the timestamp of the SCT. -/
def sampleVerifier : LogVerifier where
  KeyID := [7]
  VerifyMerkleAuditProof := fun _ sct proof =>
    if proof.leaf_index = sct.timestamp then VerifyResult.VERIFY_OK
    else VerifyResult.VERIFY_ERROR 5
  VerifySignedCertificateTimestamp := fun _ _ => VerifyResult.VERIFY_OK

/-- Sample SCT with a one-byte key-id. -/
def sampleSct (key time : Nat) : SignedCertificateTimestamp where
  version := 0
  id := { key_id := [key] }
  timestamp := time
  extension := []
  signature := [time]

/-- Sample log entry. -/
def sampleEntry : LogEntry := { type := LogEntryType.X509_ENTRY, leaf_certificate := [48, 0] }

/-- Sample client state: three SCTs, the second from the log with key-id `[7]`. -/
def sampleCTData : SSLClientCTData where
  reconstructed_entry := some sampleEntry
  attached_sct_info :=
    [{ sct := sampleSct 6 1, merkle_leaf_hash := [10] },
     { sct := sampleSct 7 2, merkle_leaf_hash := [20] },
     { sct := sampleSct 8 3, merkle_leaf_hash := [30] }]

/-- Sample log client: connects, accepts uploads, and has a proof with leaf
index 2 for the leaf hash `[20]` only. -/
def sampleLogClient : LogClient where
  Connect := true
  UploadSubmission := fun _ _ => some (sampleSct 7 2)
  QueryAuditProof := fun _ leaf_hash =>
    if leaf_hash = [20] then some { leaf_index := 2, tree_size := 8, path_node := [] }
    else none

/-- Sample TLS client: the handshake succeeds and leaves `sampleCTData`. -/
def sampleSSLClient : SSLClient where
  handshake := fun _ => (HandshakeResult.OK, sampleCTData)
  ct_data := { reconstructed_entry := none, attached_sct_info := [] }

/-- ASCII code of a lower-case hexadecimal digit. -/
def sampleHexDigit (d : Nat) : Nat := if d < 10 then 48 + d else 87 + d

/-- Sample world. -/
def sampleWorld : World where
  PEM_read_PUBKEY := fun _ => some sampleVerifier
  LogClient := fun _ _ => sampleLogClient
  SSLClient := fun _ _ _ _ => sampleSSLClient
  ParseFromString := fun bytes => if bytes = [1] then some sampleCTData else none
  SerializeToString := fun _ => some [1]
  SerializeSCT := fun sct => some [sct.version, sct.timestamp]
  sct_length_bytes := 2
  ExtensionObject := fun oid =>
    if oid = "1.2.3.0" then some { arcs := [1, 2, 3, 0] }
    else if oid = "1.2.3.1" then some { arcs := [1, 2, 3, 1] }
    else none
  kProofExtensionOID := "1.2.3.0"
  kEmbeddedProofExtensionOID := "1.2.3.1"
  BN_rand := 5
  now := 1000
  i2d_X509 := fun _ => some [48, 0]
  PEM_read_X509 := fun _ => none
  HexString := fun bytes =>
    (bytes.map (fun b => [sampleHexDigit (b / 16 % 16), sampleHexDigit (b % 16)])).flatten

/-- Sample files: the stored client state, the key of the log and an SCT token. -/
def sampleFiles : FileSystem where
  contents := fun path =>
    if path = "ct_data.bin" then some [1]
    else if path = "log_key.pem" then some [2]
    else if path = "sct.bin" then some [1, 2, 3]
    else if path = "chain.pem" then some [3]
    else none
  writable := fun _ => true

/-- Sample flags. -/
def sampleFlags : Flags :=
  { Flags.defaults with
    ct_server_public_key := "log_key.pem"
    ssl_client_ct_data_in := "ct_data.bin"
    sct_token := "sct.bin"
    ct_server_submission := "chain.pem" }

/-- The leaf hash of a call to `QueryAuditProof`, nothing for another call. -/
def Event.queriedHash : Event → Option Bytes
  | Event.QueryAuditProof merkle_leaf_hash => some merkle_leaf_hash
  | _ => none

/-- Leaf hashes of the audit-proof queries among the calls, in the order made. -/
def queriedHashes (events : List Event) : List Bytes :=
  events.filterMap Event.queriedHash

/-- Sample client state with two SCTs of the log with key-id `[7]`. -/
def sampleCTDataTwo : SSLClientCTData where
  reconstructed_entry := some sampleEntry
  attached_sct_info :=
    [{ sct := sampleSct 7 1, merkle_leaf_hash := [10] },
     { sct := sampleSct 7 2, merkle_leaf_hash := [20] }]

/-- Sample proof with a given leaf index. -/
def sampleProof (leaf_index : Nat) : MerkleAuditProof :=
  { leaf_index := leaf_index, tree_size := 8, path_node := [] }

/-- Sample world in which both SCTs of `sampleCTDataTwo` have a proof that verifies. -/
def sampleWorldTwo : World :=
  { sampleWorld with
    ParseFromString := fun _ => some sampleCTDataTwo
    LogClient := fun _ _ =>
      { sampleLogClient with
        QueryAuditProof := fun _ leaf_hash =>
          if leaf_hash = [10] then some (sampleProof 1)
          else if leaf_hash = [20] then some (sampleProof 2)
          else none } }

/-- Sample world whose log server cannot be reached. -/
def sampleWorldDown : World :=
  { sampleWorld with LogClient := fun _ _ => { sampleLogClient with Connect := false } }

/-- Client state without any SCT. -/
def sampleCTDataEmpty : SSLClientCTData :=
  { reconstructed_entry := some sampleEntry, attached_sct_info := [] }

/-- Sample world whose server presents no SCT: the strict handshake fails, the
lenient one succeeds with no SCT recorded. -/
def sampleWorldNoSct : World :=
  { sampleWorld with
    SSLClient := fun _ _ _ _ =>
      { handshake := fun strict =>
          if strict then (HandshakeResult.HANDSHAKE_FAILED, sampleCTDataEmpty)
          else (HandshakeResult.OK, sampleCTDataEmpty)
        ct_data := sampleCTDataEmpty } }

/-- Sample world whose TLS server cannot be reached. -/
def sampleWorldSslDown : World :=
  { sampleWorld with
    SSLClient := fun _ _ _ _ =>
      { handshake := fun _ => (HandshakeResult.SERVER_UNAVAILABLE, sampleCTDataEmpty)
        ct_data := sampleCTDataEmpty } }

/-- Sample world in which the token of the log server cannot be serialised. -/
def sampleWorldBadToken : World :=
  { sampleWorld with SerializeSCT := fun _ => none }

/-- Sample flags for a lenient `connect` that records the client state. -/
def sampleFlagsLenient : Flags :=
  { sampleFlags with ssl_client_require_sct := false, ssl_client_ct_data_out := "ct_data.out" }

/-- Sample flags for a strict `connect` that records the client state. -/
def sampleFlagsStrict : Flags :=
  { sampleFlags with ssl_client_ct_data_out := "ct_data.out" }

/-- Sample flags for an `upload` that records the token. -/
def sampleFlagsUpload : Flags :=
  { sampleFlags with ct_server_response_out := "sct.out" }

/-- Sample flags for a `connect` that expects the handshake to fail. -/
def sampleFlagsExpectFailure : Flags :=
  { sampleFlags with ssl_client_expect_handshake_failure := true }

/-- Sample files with an X509v3 configuration file that ends in a section header. -/
def sampleFilesConf : FileSystem :=
  { sampleFiles with
    contents := fun path =>
      if path = "openssl.cnf" then some (ascii "[v3]\n") else sampleFiles.contents path }

/-- Sample flags for `configure_proof`. -/
def sampleFlagsConfig : Flags :=
  { sampleFlags with extensions_config_out := "openssl.cnf" }

/-- Sample world whose stored client state holds no SCT and whose log server
cannot be reached. -/
def sampleWorldEmptyDown : World :=
  { sampleWorldDown with ParseFromString := fun _ => some sampleCTDataEmpty }

/-! # Theorems -/

/-! ## Properties of `audit` -/

theorem earlierQueries_zero (key_id : Bytes) (infos : List AttachedSctInfo) :
    earlierQueries key_id infos 0 = [] := by
  simp [earlierQueries]

theorem earlierQueries_succ_match (key_id : Bytes) (info : AttachedSctInfo)
    (rest : List AttachedSctInfo) (j : Nat) (h : info.sct.id.key_id = key_id) :
    earlierQueries key_id (info :: rest) (j + 1)
      = info.merkle_leaf_hash :: earlierQueries key_id rest j := by
  simp [earlierQueries, List.filter_cons, h]

theorem earlierQueries_succ_skip (key_id : Bytes) (info : AttachedSctInfo)
    (rest : List AttachedSctInfo) (j : Nat) (h : info.sct.id.key_id ≠ key_id) :
    earlierQueries key_id (info :: rest) (j + 1) = earlierQueries key_id rest j := by
  simp [earlierQueries, List.filter_cons, h]

theorem AuditedOk_cons_skip (verifier : LogVerifier) (client : LogClient) (key_id : Bytes)
    (entry : LogEntry) (info : AttachedSctInfo) (rest : List AttachedSctInfo)
    (sent : List Bytes) (h : info.sct.id.key_id ≠ key_id) :
    AuditedOk verifier client key_id entry (info :: rest) sent
      ↔ AuditedOk verifier client key_id entry rest sent := by
  constructor
  · rintro ⟨i, x, proof, hi, hk, hq, hv⟩
    cases i with
    | zero =>
      simp only [List.getElem?_cons_zero, Option.some.injEq] at hi
      subst hi
      exact absurd hk h
    | succ j =>
      rw [earlierQueries_succ_skip key_id info rest j h] at hq
      exact ⟨j, x, proof, by simpa using hi, hk, hq, hv⟩
  · rintro ⟨j, x, proof, hi, hk, hq, hv⟩
    refine ⟨j + 1, x, proof, by simpa using hi, hk, ?_, hv⟩
    rw [earlierQueries_succ_skip key_id info rest j h]
    exact hq

theorem AuditedOk_cons_match (verifier : LogVerifier) (client : LogClient) (key_id : Bytes)
    (entry : LogEntry) (info : AttachedSctInfo) (rest : List AttachedSctInfo)
    (sent : List Bytes) (h : info.sct.id.key_id = key_id) :
    AuditedOk verifier client key_id entry (info :: rest) sent
      ↔ (∃ proof, client.QueryAuditProof sent info.merkle_leaf_hash = some proof ∧
            verifier.VerifyMerkleAuditProof entry info.sct proof = VerifyResult.VERIFY_OK)
        ∨ AuditedOk verifier client key_id entry rest (sent ++ [info.merkle_leaf_hash]) := by
  constructor
  · rintro ⟨i, x, proof, hi, hk, hq, hv⟩
    cases i with
    | zero =>
      simp only [List.getElem?_cons_zero, Option.some.injEq] at hi
      subst hi
      rw [earlierQueries_zero, List.append_nil] at hq
      exact Or.inl ⟨proof, hq, hv⟩
    | succ j =>
      rw [earlierQueries_succ_match key_id info rest j h] at hq
      refine Or.inr ⟨j, x, proof, by simpa using hi, hk, ?_, hv⟩
      simpa using hq
  · rintro (⟨proof, hq, hv⟩ | ⟨j, x, proof, hi, hk, hq, hv⟩)
    · refine ⟨0, info, proof, by simp, h, ?_, hv⟩
      rw [earlierQueries_zero, List.append_nil]
      exact hq
    · refine ⟨j + 1, x, proof, by simpa using hi, hk, ?_, hv⟩
      rw [earlierQueries_succ_match key_id info rest j h]
      simpa using hq

/-- The loop ends with `PROOF_OK` exactly when it started with it or audits
some entry with success. -/
theorem auditLoop_ok_iff (verifier : LogVerifier) (client : LogClient) (key_id : Bytes)
    (entry : LogEntry) (infos : List AttachedSctInfo) :
    ∀ (sent : List Bytes) (r : AuditResult),
      (auditLoop verifier client key_id entry infos sent r).1 = AuditResult.PROOF_OK
        ↔ r = AuditResult.PROOF_OK ∨ AuditedOk verifier client key_id entry infos sent := by
  induction infos with
  | nil =>
    intro sent r
    simp [auditLoop, AuditedOk]
  | cons info rest ih =>
    intro sent r
    by_cases hk : info.sct.id.key_id = key_id
    · rw [AuditedOk_cons_match verifier client key_id entry info rest sent hk]
      cases hq : client.QueryAuditProof sent info.merkle_leaf_hash with
      | none =>
        simp only [auditLoop, hk, hq, ne_eq, not_true_eq_false, if_false]
        rw [ih]
        simp
      | some proof =>
        by_cases hv : verifier.VerifyMerkleAuditProof entry info.sct proof
            = VerifyResult.VERIFY_OK
        · simp only [auditLoop, hk, hq, hv, ne_eq, not_true_eq_false, if_false]
          rw [ih]
          simp [hv]
        · simp only [auditLoop, hk, hq, hv, ne_eq, not_true_eq_false, if_false,
            not_false_eq_true, if_true]
          rw [ih]
          simp [hv]
    · rw [AuditedOk_cons_skip verifier client key_id entry info rest sent hk]
      simp only [auditLoop, hk, ne_eq, not_false_eq_true, if_true]
      exact ih sent r

/-- The loop changes `audit_result` to `PROOF_OK` or leaves it as it was. -/
theorem auditLoop_result_cases (verifier : LogVerifier) (client : LogClient) (key_id : Bytes)
    (entry : LogEntry) (infos : List AttachedSctInfo) :
    ∀ (sent : List Bytes) (r : AuditResult),
      (auditLoop verifier client key_id entry infos sent r).1 = r ∨
      (auditLoop verifier client key_id entry infos sent r).1 = AuditResult.PROOF_OK := by
  induction infos with
  | nil => intro sent r; simp [auditLoop]
  | cons info rest ih =>
    intro sent r
    by_cases hk : info.sct.id.key_id = key_id
    · cases hq : client.QueryAuditProof sent info.merkle_leaf_hash with
      | none =>
        simp only [auditLoop, hk, hq, ne_eq, not_true_eq_false, if_false]
        exact ih _ r
      | some proof =>
        by_cases hv : verifier.VerifyMerkleAuditProof entry info.sct proof
            = VerifyResult.VERIFY_OK
        · simp only [auditLoop, hk, hq, hv, ne_eq, not_true_eq_false, if_false]
          rcases ih (sent ++ [info.merkle_leaf_hash]) AuditResult.PROOF_OK with h | h
          · exact Or.inr h
          · exact Or.inr h
        · simp only [auditLoop, hk, hq, hv, ne_eq, not_true_eq_false, if_false,
            not_false_eq_true, if_true]
          exact ih _ r
    · simp only [auditLoop, hk, ne_eq, not_false_eq_true, if_true]
      exact ih sent r

/-- When the state file, the verifier and the connection are all there,
`Audit` returns what the loop computes from `PROOF_NOT_FOUND`. -/
theorem Audit_connected (w : World) (flags : Flags) (fs : FileSystem) (data : Bytes)
    (ct_data : SSLClientCTData) (entry : LogEntry) (verifier : LogVerifier)
    (hread : fs.ReadBinaryFile flags.ssl_client_ct_data_in = some data)
    (hparse : w.ParseFromString data = some ct_data)
    (hentry : ct_data.reconstructed_entry = some entry)
    (hsize : ct_data.attached_sct_info ≠ [])
    (hver : GetLogVerifierFromFlags w flags fs = some verifier)
    (hconn : (w.LogClient flags.ct_server flags.ct_server_port).Connect = true) :
    Audit w flags fs =
      { result := some (auditLoop verifier (w.LogClient flags.ct_server flags.ct_server_port)
          verifier.KeyID entry ct_data.attached_sct_info [] AuditResult.PROOF_NOT_FOUND).1,
        events := Event.Connect ::
          (auditLoop verifier (w.LogClient flags.ct_server flags.ct_server_port)
            verifier.KeyID entry ct_data.attached_sct_info [] AuditResult.PROOF_NOT_FOUND).2 } := by
  have hpos : ct_data.attached_sct_info_size > 0 := by
    unfold SSLClientCTData.attached_sct_info_size
    exact List.length_pos.mpr hsize
  simp [Audit, hread, hparse, hentry, hver, hconn, hpos]

/-- C1. For a stored client state with a reconstructed entry and at least one
AttachedSctInfo, a loaded verifier and an established connection, `Audit`
returns PROOF_OK exactly when some AttachedSctInfo has the verifier's key-id,
the audit-proof query made for its merkle_leaf_hash succeeds, and the proof
returned verifies (VERIFY_OK) against the stored entry and that SCT; in every
other case it returns PROOF_NOT_FOUND. -/
theorem Audit_proof_ok_iff (w : World) (flags : Flags) (fs : FileSystem) (data : Bytes)
    (ct_data : SSLClientCTData) (entry : LogEntry) (verifier : LogVerifier)
    (hread : fs.ReadBinaryFile flags.ssl_client_ct_data_in = some data)
    (hparse : w.ParseFromString data = some ct_data)
    (hentry : ct_data.reconstructed_entry = some entry)
    (hsize : ct_data.attached_sct_info ≠ [])
    (hver : GetLogVerifierFromFlags w flags fs = some verifier)
    (hconn : (w.LogClient flags.ct_server flags.ct_server_port).Connect = true) :
    ((Audit w flags fs).result = some AuditResult.PROOF_OK ↔
      ∃ (i : Nat) (info : AttachedSctInfo) (proof : MerkleAuditProof),
        ct_data.attached_sct_info[i]? = some info ∧
        info.sct.id.key_id = verifier.KeyID ∧
        (w.LogClient flags.ct_server flags.ct_server_port).QueryAuditProof
          (earlierQueries verifier.KeyID ct_data.attached_sct_info i) info.merkle_leaf_hash
          = some proof ∧
        verifier.VerifyMerkleAuditProof entry info.sct proof = VerifyResult.VERIFY_OK) ∧
    ((Audit w flags fs).result ≠ some AuditResult.PROOF_OK →
      (Audit w flags fs).result = some AuditResult.PROOF_NOT_FOUND) := by
  rw [Audit_connected w flags fs data ct_data entry verifier hread hparse hentry hsize hver hconn]
  constructor
  · simp only [Option.some.injEq]
    rw [auditLoop_ok_iff]
    simp [AuditedOk]
  · intro h
    simp only [ne_eq, Option.some.injEq] at h
    rcases auditLoop_result_cases verifier (w.LogClient flags.ct_server flags.ct_server_port)
      verifier.KeyID entry ct_data.attached_sct_info [] AuditResult.PROOF_NOT_FOUND with h1 | h1
    · simp [h1]
    · exact absurd h1 h

/-- Witness of C1 on the sample run: the second of the three SCTs carries the
key-id of the verifier and its proof verifies. -/
theorem Audit_proof_ok_iff_witness :
    (Audit sampleWorld sampleFlags sampleFiles).result = some AuditResult.PROOF_OK :=
  (Audit_proof_ok_iff sampleWorld sampleFlags sampleFiles [1] sampleCTData sampleEntry
    sampleVerifier rfl rfl rfl (by decide) rfl rfl).1.mpr
    ⟨1, { sct := sampleSct 7 2, merkle_leaf_hash := [20] },
      { leaf_index := 2, tree_size := 8, path_node := [] },
      by decide, by decide, by decide, by decide⟩

/-- C2. For a stored client state with a reconstructed entry and at least one
AttachedSctInfo (and a loaded verifier), when the connection to the log server
cannot be established `Audit` returns SERVER_UNAVAILABLE, whose code is 2, and
the only call it has made is the connection attempt: no audit-proof query and
no proof verification for any AttachedSctInfo. -/
theorem Audit_server_unavailable (w : World) (flags : Flags) (fs : FileSystem) (data : Bytes)
    (ct_data : SSLClientCTData) (entry : LogEntry) (verifier : LogVerifier)
    (hread : fs.ReadBinaryFile flags.ssl_client_ct_data_in = some data)
    (hparse : w.ParseFromString data = some ct_data)
    (hentry : ct_data.reconstructed_entry = some entry)
    (hsize : ct_data.attached_sct_info ≠ [])
    (hver : GetLogVerifierFromFlags w flags fs = some verifier)
    (hconn : (w.LogClient flags.ct_server flags.ct_server_port).Connect = false) :
    (Audit w flags fs).result = some AuditResult.CT_SERVER_UNAVAILABLE ∧
    AuditResult.toInt AuditResult.CT_SERVER_UNAVAILABLE = 2 ∧
    (Audit w flags fs).events = [Event.Connect] ∧
    (∀ leaf_hash, Event.QueryAuditProof leaf_hash ∉ (Audit w flags fs).events) ∧
    (∀ e sct proof, Event.VerifyMerkleAuditProof e sct proof ∉ (Audit w flags fs).events) := by
  have hpos : ct_data.attached_sct_info_size > 0 := by
    unfold SSLClientCTData.attached_sct_info_size
    exact List.length_pos.mpr hsize
  have hrun : Audit w flags fs
      = { result := some AuditResult.CT_SERVER_UNAVAILABLE, events := [Event.Connect] } := by
    simp [Audit, hread, hparse, hentry, hver, hconn, hpos]
  rw [hrun]
  refine ⟨rfl, rfl, rfl, ?_, ?_⟩
  · intro leaf_hash
    simp
  · intro e sct proof
    simp

/-- Witness of C2: the sample run with an unreachable log server. -/
theorem Audit_server_unavailable_witness :
    (Audit sampleWorldDown sampleFlags sampleFiles).result
        = some AuditResult.CT_SERVER_UNAVAILABLE ∧
    (Audit sampleWorldDown sampleFlags sampleFiles).events = [Event.Connect] :=
  have h := Audit_server_unavailable sampleWorldDown sampleFlags sampleFiles [1] sampleCTData
    sampleEntry sampleVerifier rfl rfl rfl (by decide) rfl rfl
  ⟨h.1, h.2.2.1⟩

/-- The audit-proof queries of the loop: one for every entry with the key-id,
in order, whatever `audit_result` is. -/
theorem auditLoop_queries (verifier : LogVerifier) (client : LogClient) (key_id : Bytes)
    (entry : LogEntry) (infos : List AttachedSctInfo) :
    ∀ (sent : List Bytes) (r : AuditResult),
      queriedHashes (auditLoop verifier client key_id entry infos sent r).2
        = earlierQueries key_id infos infos.length := by
  induction infos with
  | nil => intro sent r; simp [auditLoop, queriedHashes, earlierQueries]
  | cons info rest ih =>
    intro sent r
    by_cases hk : info.sct.id.key_id = key_id
    · rw [List.length_cons, earlierQueries_succ_match key_id info rest _ hk]
      cases hq : client.QueryAuditProof sent info.merkle_leaf_hash with
      | none =>
        simp only [auditLoop, hk, hq, ne_eq, not_true_eq_false, if_false]
        have h := ih (sent ++ [info.merkle_leaf_hash]) r
        simp only [queriedHashes] at h ⊢
        simp [List.filterMap_cons, Event.queriedHash, h]
      | some proof =>
        by_cases hv : verifier.VerifyMerkleAuditProof entry info.sct proof
            = VerifyResult.VERIFY_OK
        · simp only [auditLoop, hk, hq, hv, ne_eq, not_true_eq_false, if_false]
          have h := ih (sent ++ [info.merkle_leaf_hash]) AuditResult.PROOF_OK
          simp only [queriedHashes] at h ⊢
          simp [List.filterMap_cons, Event.queriedHash, h]
        · simp only [auditLoop, hk, hq, hv, ne_eq, not_true_eq_false, if_false,
            not_false_eq_true, if_true]
          have h := ih (sent ++ [info.merkle_leaf_hash]) r
          simp only [queriedHashes] at h ⊢
          simp [List.filterMap_cons, Event.queriedHash, h]
    · rw [List.length_cons, earlierQueries_succ_skip key_id info rest _ hk]
      simp only [auditLoop, hk, ne_eq, not_false_eq_true, if_true]
      exact ih sent r

/-- C8, as stated, fails: in the sample run with two SCTs of the log, the proof
of the first verifies and `Audit` still queries and verifies a proof for the
second before it returns PROOF_OK. -/
theorem Audit_continues_after_verified :
    (Audit sampleWorldTwo sampleFlags sampleFiles).result = some AuditResult.PROOF_OK ∧
    sampleVerifier.VerifyMerkleAuditProof sampleEntry (sampleSct 7 1) (sampleProof 1)
      = VerifyResult.VERIFY_OK ∧
    (Audit sampleWorldTwo sampleFlags sampleFiles).events =
      [Event.Connect,
       Event.QueryAuditProof [10],
       Event.VerifyMerkleAuditProof sampleEntry (sampleSct 7 1) (sampleProof 1),
       Event.QueryAuditProof [20],
       Event.VerifyMerkleAuditProof sampleEntry (sampleSct 7 2) (sampleProof 2)] := by
  decide

/-- C8, amended. `Audit` returns PROOF_OK when the audit proof of some
AttachedSctInfo verifies, and it does not stop at the first one: it makes an
audit-proof query for every AttachedSctInfo whose key-id is the verifier's, in
sequence order, those that come after a verified one included. -/
theorem Audit_audits_all (w : World) (flags : Flags) (fs : FileSystem) (data : Bytes)
    (ct_data : SSLClientCTData) (entry : LogEntry) (verifier : LogVerifier)
    (hread : fs.ReadBinaryFile flags.ssl_client_ct_data_in = some data)
    (hparse : w.ParseFromString data = some ct_data)
    (hentry : ct_data.reconstructed_entry = some entry)
    (hsize : ct_data.attached_sct_info ≠ [])
    (hver : GetLogVerifierFromFlags w flags fs = some verifier)
    (hconn : (w.LogClient flags.ct_server flags.ct_server_port).Connect = true) :
    ((Audit w flags fs).result = some AuditResult.PROOF_OK ↔
      AuditedOk verifier (w.LogClient flags.ct_server flags.ct_server_port) verifier.KeyID
        entry ct_data.attached_sct_info []) ∧
    queriedHashes (Audit w flags fs).events =
      (ct_data.attached_sct_info.filter
        (fun info => info.sct.id.key_id = verifier.KeyID)).map
        (fun info => info.merkle_leaf_hash) := by
  rw [Audit_connected w flags fs data ct_data entry verifier hread hparse hentry hsize hver hconn]
  constructor
  · simp only [Option.some.injEq]
    rw [auditLoop_ok_iff]
    simp
  · have h := auditLoop_queries verifier (w.LogClient flags.ct_server flags.ct_server_port)
      verifier.KeyID entry ct_data.attached_sct_info [] AuditResult.PROOF_NOT_FOUND
    simp only [queriedHashes, List.filterMap_cons, Event.queriedHash] at h ⊢
    rw [h]
    simp [earlierQueries]

/-- Witness of the amended C8: in the sample run with two SCTs of the log both
leaf hashes are queried. -/
theorem Audit_audits_all_witness :
    queriedHashes (Audit sampleWorldTwo sampleFlags sampleFiles).events = [[10], [20]] :=
  (Audit_audits_all sampleWorldTwo sampleFlags sampleFiles [1] sampleCTDataTwo sampleEntry
    sampleVerifier rfl rfl rfl (by decide) rfl rfl).2

/-! ## Properties of `connect` -/

/-- C7, as stated, fails: a lenient handshake that ends OK without any SCT
leaves the configured output file unwritten, though the client state could be
serialised. -/
theorem Connect_ok_without_sct_writes_nothing :
    (Connect sampleWorldNoSct sampleFlagsLenient sampleFiles).1 = some HandshakeResult.OK ∧
    sampleFlagsLenient.ssl_client_ct_data_out = "ct_data.out" ∧
    sampleWorldNoSct.SerializeToString sampleCTDataEmpty = some [1] ∧
    (Connect sampleWorldNoSct sampleFlagsLenient sampleFiles).2.contents "ct_data.out" = none := by
  decide

/-- C7, amended. For every handshake that `Connect` completes with result OK,
strict or lenient, with an output file configured: when the client state
obtained from the client holds at least one AttachedSctInfo, `Connect` writes
its serialisation to that file; when it holds none, the files are left as they
were. -/
theorem Connect_writes_ct_data (w : World) (flags : Flags) (fs : FileSystem)
    (verifier : LogVerifier)
    (hver : GetLogVerifierFromFlags w flags fs = some verifier)
    (hok : (Connect w flags fs).1 = some HandshakeResult.OK)
    (hout : flags.ssl_client_ct_data_out ≠ "") :
    let client := w.SSLClient flags.ssl_server flags.ssl_server_port
      flags.ssl_client_trusted_cert_dir verifier
    let connected :=
      if flags.ssl_client_require_sct then client.SSLConnectStrict else client.SSLConnect
    let ct_data := connected.2.GetSSLClientCTData
    (0 < ct_data.attached_sct_info_size →
      ∃ serialized_data, w.SerializeToString ct_data = some serialized_data ∧
        (Connect w flags fs).2.contents flags.ssl_client_ct_data_out = some serialized_data) ∧
    (ct_data.attached_sct_info_size = 0 → (Connect w flags fs).2 = fs) := by
  intro client connected ct_data
  have hres : connected.1 = HandshakeResult.OK := by
    by_contra hne
    have : (Connect w flags fs).1 = some connected.1 := by
      simp only [Connect, hver]
      rw [if_neg hne]
    rw [this] at hok
    exact hne (Option.some.inj hok)
  constructor
  · intro hpos
    by_cases hw : fs.writable flags.ssl_client_ct_data_out = true
    · cases hser : w.SerializeToString ct_data with
      | none =>
        exfalso
        have : (Connect w flags fs).1 = none := by
          simp only [Connect, hver]
          rw [if_pos hres, if_pos hpos, if_pos hout]
          simp only [hw, not_true_eq_false, if_false]
          rw [hser]
        rw [this] at hok
        exact Option.noConfusion hok
      | some serialized_data =>
        refine ⟨serialized_data, rfl, ?_⟩
        simp only [Connect, hver]
        rw [if_pos hres, if_pos hpos, if_pos hout]
        simp only [hw, not_true_eq_false, if_false]
        rw [hser]
        simp [FileSystem.write]
    · exfalso
      have : (Connect w flags fs).1 = none := by
        simp only [Connect, hver]
        rw [if_pos hres, if_pos hpos, if_pos hout]
        simp [hw]
      rw [this] at hok
      exact Option.noConfusion hok
  · intro hzero
    have hnpos : ¬ (ct_data.attached_sct_info_size > 0) := by omega
    simp only [Connect, hver]
    rw [if_pos hres, if_neg hnpos]

/-- Witness of the amended C7: the strict sample handshake records three SCTs
and the client state is written to `ct_data.out`. -/
theorem Connect_writes_ct_data_witness :
    (Connect sampleWorld sampleFlagsStrict sampleFiles).2.contents "ct_data.out" = some [1] := by
  obtain ⟨serialized_data, hser, hfile⟩ :=
    (Connect_writes_ct_data sampleWorld sampleFlagsStrict sampleFiles sampleVerifier rfl
      (by decide) (by decide)).1 (by decide)
  have h1 : serialized_data = [1] := (Option.some.inj hser).symm
  rw [h1] at hfile
  exact hfile

/-! ## Properties of `main` for `connect` -/

/-- C3 at the failing input: without --ssl_client_expect_handshake_failure and
with an unreachable TLS server, `Connect` returns SERVER_UNAVAILABLE, whose
numeric value is 2, and `main` exits with 1. -/
theorem main_connect_server_unavailable_exit :
    sampleFlags.ssl_client_expect_handshake_failure = false ∧
    (Connect sampleWorldSslDown sampleFlags sampleFiles).1
      = some HandshakeResult.SERVER_UNAVAILABLE ∧
    HandshakeResult.toInt HandshakeResult.SERVER_UNAVAILABLE = 2 ∧
    (main sampleWorldSslDown ["ct", "connect"] sampleFlags sampleFiles).1 = some 1 := by
  decide

/-- C10. When `connect` runs with --ssl_client_expect_handshake_failure set and
`Connect` returns a handshake result, the program exits with 0 exactly when the
result is HANDSHAKE_FAILED; for OK and for SERVER_UNAVAILABLE it exits with 1. -/
theorem main_connect_expect_failure (w : World) (flags : Flags) (fs : FileSystem)
    (prog : String) (rest : List String) (result : HandshakeResult)
    (hflag : flags.ssl_client_expect_handshake_failure = true)
    (hres : (Connect w flags fs).1 = some result) :
    ((main w (prog :: "connect" :: rest) flags fs).1 = some 0
      ↔ result = HandshakeResult.HANDSHAKE_FAILED) ∧
    (result = HandshakeResult.OK ∨ result = HandshakeResult.SERVER_UNAVAILABLE →
      (main w (prog :: "connect" :: rest) flags fs).1 = some 1) := by
  have hc : Connect w flags fs = (some result, (Connect w flags fs).2) := by
    rw [← hres]
  have hmain : (main w (prog :: "connect" :: rest) flags fs).1
      = some (if result = HandshakeResult.HANDSHAKE_FAILED then 0 else 1) := by
    simp only [main, List.length_cons, List.getD_cons_succ, List.getD_cons_zero]
    rw [hc]
    have hlen : ¬ (rest.length + 1 + 1 < 2) := by omega
    cases result <;> simp [hflag, hlen]
  rw [hmain]
  constructor
  · cases result <;> simp
  · rintro (h | h) <;> simp [h]

/-- Witness of C10: the strict handshake with a server that presents no SCT
fails, and with the flag set the program exits with 0. -/
theorem main_connect_expect_failure_witness :
    (main sampleWorldNoSct ["ct", "connect"] sampleFlagsExpectFailure sampleFiles).1 = some 0 :=
  (main_connect_expect_failure sampleWorldNoSct sampleFlagsExpectFailure sampleFiles "ct" []
    HandshakeResult.HANDSHAKE_FAILED rfl (by decide)).1.mpr rfl

/-! ## Properties of `upload` -/

/-- C9, as stated, fails: the log server accepts the submission and returns a
token, the token cannot be serialised for the response file, and `Upload`
returns 1. -/
theorem Upload_returns_1_though_accepted :
    (sampleWorldBadToken.LogClient sampleFlagsUpload.ct_server
      sampleFlagsUpload.ct_server_port).Connect = true ∧
    (sampleWorldBadToken.LogClient sampleFlagsUpload.ct_server
      sampleFlagsUpload.ct_server_port).UploadSubmission [3] sampleFlagsUpload.precert
        = some (sampleSct 7 2) ∧
    sampleFiles.ReadBinaryFile sampleFlagsUpload.ct_server_submission = some [3] ∧
    (Upload sampleWorldBadToken sampleFlagsUpload sampleFiles).1 = some 1 := by
  decide

/-- C9, amended. When the submission file can be read, `Upload` returns 2
exactly when the connection to the log server cannot be established; 1 exactly
when the connection is established and either the server rejects the
submission or the token it returned cannot be serialised for the response
file that was configured and opened; 0 exactly when the server returned a
token and either no response file is configured or the token was serialised
into it. -/
theorem Upload_return_code (w : World) (flags : Flags) (fs : FileSystem) (contents : Bytes)
    (hread : fs.ReadBinaryFile flags.ct_server_submission = some contents) :
    let client := w.LogClient flags.ct_server flags.ct_server_port
    ((Upload w flags fs).1 = some 2 ↔ client.Connect = false) ∧
    ((Upload w flags fs).1 = some 1 ↔
      client.Connect = true ∧
      (client.UploadSubmission contents flags.precert = none ∨
       ∃ sct, client.UploadSubmission contents flags.precert = some sct ∧
         flags.ct_server_response_out ≠ "" ∧
         fs.writable flags.ct_server_response_out = true ∧
         w.SerializeSCT sct = none)) ∧
    ((Upload w flags fs).1 = some 0 ↔
      client.Connect = true ∧
      ∃ sct, client.UploadSubmission contents flags.precert = some sct ∧
        (flags.ct_server_response_out = "" ∨
         (fs.writable flags.ct_server_response_out = true ∧
          ∃ proof, w.SerializeSCT sct = some proof))) := by
  intro client
  by_cases hc : client.Connect = true
  · cases hu : client.UploadSubmission contents flags.precert with
    | none =>
      have hU : (Upload w flags fs).1 = some 1 := by
        simp only [Upload, hread]
        simp [client, hc, hu] at *
        simp [hc, hu]
      rw [hU]
      simp [hc]
    | some sct =>
      by_cases hr : flags.ct_server_response_out = ""
      · have hU : (Upload w flags fs).1 = some 0 := by
          simp only [Upload, hread]
          simp [client] at hc hu
          simp [hc, hu, hr]
        rw [hU]
        simp [hc, hr]
      · by_cases hw : fs.writable flags.ct_server_response_out = true
        · cases hs : w.SerializeSCT sct with
          | none =>
            have hU : (Upload w flags fs).1 = some 1 := by
              simp only [Upload, hread]
              simp [client] at hc hu
              simp [hc, hu, hr, hw, hs]
            rw [hU]
            simp [hc, hr, hw, hs]
          | some proof =>
            have hU : (Upload w flags fs).1 = some 0 := by
              simp only [Upload, hread]
              simp [client] at hc hu
              simp [hc, hu, hr, hw, hs]
            rw [hU]
            simp [hc, hr, hw, hs]
        · have hU : (Upload w flags fs).1 = none := by
            simp only [Upload, hread]
            simp [client] at hc hu
            simp [hc, hu, hr, hw]
          rw [hU]
          simp [hc, hr, hw]
  · have hU : (Upload w flags fs).1 = some 2 := by
      simp only [Upload, hread]
      simp [client] at hc
      simp [hc]
    rw [hU]
    simp [hc]

/-- Witness of the amended C9: in the sample world the server accepts and the
token is saved, so `Upload` returns 0. -/
theorem Upload_return_code_witness :
    (Upload sampleWorld sampleFlagsUpload sampleFiles).1 = some 0 :=
  (Upload_return_code sampleWorld sampleFlagsUpload sampleFiles [3] rfl).2.2.mpr
    ⟨rfl, sampleSct 7 2, rfl, Or.inr ⟨rfl, [0, 2], rfl⟩⟩

/-! ## Big-endian numbers -/

theorem length_encodeBE (w n : Nat) : (encodeBE w n).length = w := by
  induction w with
  | zero => rfl
  | succ k ih => simp [encodeBE, ih]

theorem foldl_encodeBE (w n acc : Nat) :
    (encodeBE w n).foldl (fun acc b => acc * 256 + b) acc = acc * 256 ^ w + n % 256 ^ w := by
  induction w generalizing acc with
  | zero => simp [encodeBE, Nat.mod_one]
  | succ k ih =>
    simp only [encodeBE, List.foldl_cons]
    rw [ih, Nat.mod_pow_succ]
    ring

theorem decodeBE_encodeBE (w n : Nat) (h : n < 256 ^ w) : decodeBE (encodeBE w n) = n := by
  unfold decodeBE
  rw [foldl_encodeBE, Nat.mod_eq_of_lt h]
  simp

/-! ## The SCT list codec -/

theorem readSCTListElements_succ (w fuel : Nat) (bytes : Bytes) (h : bytes ≠ []) :
    readSCTListElements w (fuel + 1) bytes =
      if bytes.length < w then none
      else if (bytes.drop w).length < decodeBE (bytes.take w) then none
      else (readSCTListElements w fuel ((bytes.drop w).drop (decodeBE (bytes.take w)))).map
        (fun scts => (bytes.drop w).take (decodeBE (bytes.take w)) :: scts) := by
  cases bytes with
  | nil => exact absurd rfl h
  | cons b bs => rfl

theorem readSCTListElements_nil (w fuel : Nat) : readSCTListElements w fuel [] = some [] := by
  cases fuel <;> rfl

/-- One length-prefixed element is read back as that element. -/
theorem readSCTListElements_single (w fuel : Nat) (s : Bytes) (hw : 0 < w)
    (hs : s.length < 256 ^ w) :
    readSCTListElements w (fuel + 1) (encodeBE w s.length ++ s) = some [s] := by
  have hne : encodeBE w s.length ++ s ≠ [] := by
    intro h
    have hl := congrArg List.length h
    simp [length_encodeBE] at hl
    omega
  rw [readSCTListElements_succ w fuel _ hne]
  have htake : (encodeBE w s.length ++ s).take w = encodeBE w s.length :=
    List.take_left' (length_encodeBE w s.length)
  have hdrop : (encodeBE w s.length ++ s).drop w = s :=
    List.drop_left' (length_encodeBE w s.length)
  rw [htake, hdrop, decodeBE_encodeBE w s.length hs]
  simp [length_encodeBE, readSCTListElements_nil]

/-- The serialisation of a one-element list, when it succeeds, spelled out. -/
theorem SerializeSCTList_single (w : Nat) (s r : Bytes)
    (h : SerializeSCTList w { sct_list := [s] } = some r) :
    s.length < 256 ^ w ∧ w + s.length < 256 ^ w ∧
    r = encodeBE w (w + s.length) ++ (encodeBE w s.length ++ s) := by
  unfold SerializeSCTList at h
  simp only [List.map_cons, List.map_nil, List.flatten_cons, List.flatten_nil, List.append_nil,
    List.any_cons, List.any_nil, Bool.or_false, decide_eq_true_eq, List.length_append,
    length_encodeBE] at h
  split_ifs at h with h1 h2 h3
  · simp at h1
  · refine ⟨by omega, by omega, ?_⟩
    exact (Option.some.inj h).symm

/-- C5. For every serialised SCT `s` for which SCT-list serialisation of the
one-element list succeeds, `SCTToList s` is that serialisation, and decoding it
as an SCT list gives a list of length 1 whose only element is `s`. The length
fields of the list format take at least one byte. -/
theorem SCTToList_single_round_trip (w : World) (s r : Bytes)
    (hw : 0 < w.sct_length_bytes)
    (hser : SerializeSCTList w.sct_length_bytes { sct_list := [s] } = some r) :
    SCTToList w s = some r ∧
    ∃ decoded, DeserializeSCTList w.sct_length_bytes r = some decoded ∧
      decoded.sct_list.length = 1 ∧ decoded.sct_list = [s] := by
  constructor
  · simpa [SCTToList, SignedCertificateTimestampList.add_sct_list] using hser
  · obtain ⟨hs, hbody, hr⟩ := SerializeSCTList_single w.sct_length_bytes s r hser
    refine ⟨{ sct_list := [s] }, ?_, rfl, rfl⟩
    subst hr
    have htake : (encodeBE w.sct_length_bytes (w.sct_length_bytes + s.length)
        ++ (encodeBE w.sct_length_bytes s.length ++ s)).take w.sct_length_bytes
        = encodeBE w.sct_length_bytes (w.sct_length_bytes + s.length) :=
      List.take_left' (length_encodeBE _ _)
    have hdrop : (encodeBE w.sct_length_bytes (w.sct_length_bytes + s.length)
        ++ (encodeBE w.sct_length_bytes s.length ++ s)).drop w.sct_length_bytes
        = encodeBE w.sct_length_bytes s.length ++ s :=
      List.drop_left' (length_encodeBE _ _)
    have hfuel : (encodeBE w.sct_length_bytes s.length ++ s).length
        = (w.sct_length_bytes + s.length - 1) + 1 := by
      simp [length_encodeBE]
      omega
    unfold DeserializeSCTList
    simp only [htake, hdrop, decodeBE_encodeBE _ _ hbody]
    rw [hfuel, readSCTListElements_single _ _ s hw hs]
    simp [length_encodeBE]
    omega

/-- Witness of C5: with two-byte lengths the token `[1, 2, 3]` becomes
`[0, 5, 0, 3, 1, 2, 3]`. -/
theorem SCTToList_single_round_trip_witness :
    SCTToList sampleWorld [1, 2, 3] = some [0, 5, 0, 3, 1, 2, 3] ∧
    DeserializeSCTList 2 [0, 5, 0, 3, 1, 2, 3] = some { sct_list := [[1, 2, 3]] } := by
  obtain ⟨h1, decoded, h2, _, h4⟩ :=
    SCTToList_single_round_trip sampleWorld [1, 2, 3] [0, 5, 0, 3, 1, 2, 3] (by decide)
      (by decide)
  refine ⟨h1, ?_⟩
  have hd : decoded = { sct_list := [[1, 2, 3]] } := by
    cases decoded
    simp only at h4
    rw [h4]
  rw [← hd]
  exact h2

/-! ## DER octet strings -/

theorem toInt32_of_lt (n : Nat) (h : n < 2 ^ 31) : toInt32 n = (n : Int) := by
  unfold toInt32
  have h1 : n % 2 ^ 32 = n := Nat.mod_eq_of_lt (by omega)
  rw [h1, if_pos h]

/-- The count of length bytes of a positive `int` is between 1 and 4 and the
length fits that many bytes. -/
theorem lengthBytes_spec (n : Nat) (h0 : 0 < n) (h : n < 2 ^ 32) :
    (lengthBytes 4 n = 1 ∧ n < 256 ^ 1) ∨ (lengthBytes 4 n = 2 ∧ n < 256 ^ 2) ∨
    (lengthBytes 4 n = 3 ∧ n < 256 ^ 3) ∨ (lengthBytes 4 n = 4 ∧ n < 256 ^ 4) := by
  simp only [lengthBytes]
  by_cases h1 : n / 256 > 0
  · by_cases h2 : n / 256 / 256 > 0
    · by_cases h3 : n / 256 / 256 / 256 > 0
      · have h4 : ¬ (n / 256 / 256 / 256 / 256 > 0) := by omega
        simp only [h0, h1, h2, h3, if_true]
        right; right; right
        exact ⟨by simp, by omega⟩
      · simp only [h0, h1, h2, h3, if_true, if_false]
        right; right; left
        exact ⟨by simp, by omega⟩
    · simp only [h0, h1, h2, if_true, if_false]
      right; left
      exact ⟨by simp, by omega⟩
  · simp only [h0, h1, if_true, if_false]
    left
    exact ⟨by simp, by omega⟩

theorem length_asn1_put_length_le (n : Nat) : (asn1_put_length n).length ≤ 5 := by
  unfold asn1_put_length
  split_ifs with h
  · simp
  · simp only [List.length_cons, length_encodeBE, lengthBytes]
    split_ifs <;> omega

/-- Reading back the length octets written for a length that fits an `int`. -/
theorem asn1_get_length_put (n : Nat) (rest : Bytes) (h : n < 2 ^ 32) :
    asn1_get_length (asn1_put_length n ++ rest) = some (n, rest) := by
  unfold asn1_put_length
  by_cases hs : n ≤ 127
  · rw [if_pos hs]
    have : n < 128 := by omega
    simp [asn1_get_length, this]
  · rw [if_neg hs]
    have key : ∀ i : Nat, (i = 1 ∨ i = 2 ∨ i = 3 ∨ i = 4) → n < 256 ^ i →
        asn1_get_length (((i ||| 0x80) :: encodeBE i n) ++ rest) = some (n, rest) := by
      intro i hi hn
      have hor : i ||| 0x80 = 128 + i := by
        rcases hi with rfl | rfl | rfl | rfl <;> decide
      have h128 : ¬ (128 + i < 128) := by omega
      have hsub : 128 + i - 128 = i := by omega
      have hlen : ¬ ((encodeBE i n ++ rest).length < i) := by
        simp [length_encodeBE]
      simp only [List.cons_append, asn1_get_length, hor, h128, if_false, hsub, hlen]
      rw [List.take_left' (length_encodeBE i n), List.drop_left' (length_encodeBE i n),
        decodeBE_encodeBE i n hn]
    rcases lengthBytes_spec n (by omega) h with ⟨hi, hn⟩ | ⟨hi, hn⟩ | ⟨hi, hn⟩ | ⟨hi, hn⟩
    · simp only [hi]; exact key 1 (by simp) hn
    · simp only [hi]; exact key 2 (by simp) hn
    · simp only [hi]; exact key 3 (by simp) hn
    · simp only [hi]; exact key 4 (by simp) hn

/-- Decoding the DER form of an octet string gives the octet string back. -/
theorem d2i_i2d_ASN1_OCTET_STRING (a : ASN1_OCTET_STRING) (h : a.data.length < 2 ^ 32) :
    d2i_ASN1_OCTET_STRING (i2d_ASN1_OCTET_STRING a) = some a := by
  simp [i2d_ASN1_OCTET_STRING, d2i_ASN1_OCTET_STRING, asn1_get_length_put _ _ h]

theorem length_i2d_ASN1_OCTET_STRING (a : ASN1_OCTET_STRING) :
    0 < (i2d_ASN1_OCTET_STRING a).length ∧
    (i2d_ASN1_OCTET_STRING a).length ≤ a.data.length + 6 := by
  have h := length_asn1_put_length_le a.data.length
  simp only [i2d_ASN1_OCTET_STRING, List.length_cons, List.length_append]
  omega

/-! ## Properties of `AddOctetExtension` -/

/-- The extension `AddOctetExtension` builds for a payload whose DER form fits an `int`. -/
theorem AddOctetExtension_eq (w : World) (cert : X509) (oid : String) (obj : ASN1_OBJECT)
    (payload : Bytes) (critical : Int)
    (hobj : w.ExtensionObject oid = some obj)
    (hlen : payload.length + 6 < 2 ^ 31) :
    AddOctetExtension w cert oid payload critical =
      some { cert with extensions := cert.extensions ++
        [{ object := some obj,
           critical := if critical ≠ 0 then 0xFF else -1,
           value := { data := i2d_ASN1_OCTET_STRING { data := payload } } }] } := by
  have hbuf := length_i2d_ASN1_OCTET_STRING { data := payload }
  simp only at hbuf
  have h1 : toInt32 payload.length = (payload.length : Int) :=
    toInt32_of_lt _ (by omega)
  have h2 : toInt32 (i2d_ASN1_OCTET_STRING { data := payload }).length
      = ((i2d_ASN1_OCTET_STRING { data := payload }).length : Int) :=
    toInt32_of_lt _ (by omega)
  have h3 : ((i2d_ASN1_OCTET_STRING { data := payload }).length : Int) > 0 := by
    have := hbuf.1
    omega
  have h4 : ¬ ((payload.length : Int) < 0) := by omega
  have h5 : ¬ (((i2d_ASN1_OCTET_STRING { data := payload }).length : Int) < 0) := by omega
  simp only [AddOctetExtension, hobj, ASN1_OCTET_STRING_set, h1, h4, if_false, Int.toNat_ofNat,
    List.take_length, i2d_ASN1_OCTET_STRING_len, h2, h3, h5, not_true_eq_false,
    X509_add_ext, X509_EXTENSION_set_data, X509_EXTENSION_set_critical,
    X509_EXTENSION_set_object, X509_EXTENSION_new]
  simp

/-- C4. Extension round trip. For every payload whose DER form fits an `int`
and for the critical flag 0 or 1, `AddOctetExtension` appends to the certificate
one extension under the object of the OID; its value, in DER, is an octet string
whose content is the DER encoding of an octet string holding the payload;
unwrapping both layers returns the payload; its critical mark is the flag
passed; and when the certificate had no extension under that OID, extracting
under the OID returns exactly the payload. -/
theorem AddOctetExtension_round_trip (w : World) (cert : X509) (oid : String)
    (obj : ASN1_OBJECT) (payload : Bytes) (critical : Int)
    (hobj : w.ExtensionObject oid = some obj)
    (hlen : payload.length + 6 < 2 ^ 31)
    (hcrit : critical = 0 ∨ critical = 1) :
    ∃ (cert2 : X509) (ext : X509_EXTENSION),
      AddOctetExtension w cert oid payload critical = some cert2 ∧
      cert2 = { cert with extensions := cert.extensions ++ [ext] } ∧
      ext.object = some obj ∧
      ext.extnValue
        = i2d_ASN1_OCTET_STRING { data := i2d_ASN1_OCTET_STRING { data := payload } } ∧
      (d2i_ASN1_OCTET_STRING ext.extnValue).bind
        (fun outer => d2i_ASN1_OCTET_STRING outer.data) = some { data := payload } ∧
      X509_EXTENSION_get_critical ext = critical ∧
      (HasExtension w cert oid = false →
        OctetStringExtensionData w cert2 oid = ExtensionData.bytes payload) := by
  have hbuf := length_i2d_ASN1_OCTET_STRING { data := payload }
  simp only at hbuf
  have hinner : d2i_ASN1_OCTET_STRING (i2d_ASN1_OCTET_STRING { data := payload })
      = some { data := payload } :=
    d2i_i2d_ASN1_OCTET_STRING _ (by simp only; omega)
  have houter : d2i_ASN1_OCTET_STRING
      (i2d_ASN1_OCTET_STRING { data := i2d_ASN1_OCTET_STRING { data := payload } })
      = some { data := i2d_ASN1_OCTET_STRING { data := payload } } :=
    d2i_i2d_ASN1_OCTET_STRING _ (by simp only; omega)
  refine ⟨_, _, AddOctetExtension_eq w cert oid obj payload critical hobj hlen, rfl, rfl, rfl,
    ?_, ?_, ?_⟩
  · simp only [X509_EXTENSION.extnValue]
    rw [houter]
    simp only [Option.some_bind]
    exact hinner
  · rcases hcrit with h | h <;> subst h <;> simp [X509_EXTENSION_get_critical]
  · intro hfresh
    simp only [HasExtension, hobj] at hfresh
    have hnone : cert.extensions.find? (fun ex => decide (ex.object = some obj)) = none := by
      rw [List.find?_eq_none]
      exact List.any_eq_false.mp hfresh
    simp only [OctetStringExtensionData, hobj, List.find?_append, hnone, Option.none_or,
      List.find?_cons, decide_True, hinner]

/-- Witness of C4: the critical extension added to a fresh certificate for the
payload `[1, 2, 3]` has the DER value `04 05 04 03 01 02 03`, and extraction
returns the payload. -/
theorem AddOctetExtension_round_trip_witness :
    (AddOctetExtension sampleWorld X509_new "1.2.3.0" [1, 2, 3] 1).map
        (fun cert => cert.extensions.map X509_EXTENSION.extnValue)
      = some [[4, 5, 4, 3, 1, 2, 3]] ∧
    (AddOctetExtension sampleWorld X509_new "1.2.3.0" [1, 2, 3] 1).map
        (fun cert => OctetStringExtensionData sampleWorld cert "1.2.3.0")
      = some (ExtensionData.bytes [1, 2, 3]) := by
  obtain ⟨cert2, ext, h1, h2, _, h4, _, _, h7⟩ :=
    AddOctetExtension_round_trip sampleWorld X509_new "1.2.3.0" { arcs := [1, 2, 3, 0] }
      [1, 2, 3] 1 rfl (by decide) (Or.inr rfl)
  rw [h1]
  refine ⟨?_, ?_⟩
  · subst h2
    simp only [Option.map_some', X509_new, List.nil_append, List.map_cons, List.map_nil, h4]
    decide
  · simp only [Option.map_some', h7 rfl]

/-! ## Properties of `authz` -/

/-- C6 at the failing input: for the token `[1, 2, 3]` the one-element SCT list
is `[0, 5, 0, 3, 1, 2, 3]`, and `ProofToAuthz` writes the format byte, the
two-byte length 3 and the bare token. -/
theorem ProofToAuthz_writes_bare_sct :
    sampleFiles.ReadBinaryFile "sct.bin" = some [1, 2, 3] ∧
    SCTToList sampleWorld [1, 2, 3] = some [0, 5, 0, 3, 1, 2, 3] ∧
    (ProofToAuthz sampleWorld { sampleFlags with authz_out := "authz.out" } sampleFiles).2.contents
      "authz.out" = some [182, 0, 3, 1, 2, 3] := by
  decide

/-! ## Properties of `configure_proof` -/

/-- C11, as stated, fails: for the token `[1, 2, 3]` the line appended after
the OID does not start with `=DER:` and does not carry the raw token; it is
`1.2.3.1=ASN1:FORMAT:HEX,OCTETSTRING:` followed by the hexadecimal text of the
one-element SCT list. -/
theorem WriteProofToConfig_line_is_not_DER :
    sampleFilesConf.contents "openssl.cnf" = some (ascii "[v3]\n") ∧
    (WriteProofToConfig sampleWorld sampleFlagsConfig sampleFilesConf).2.contents "openssl.cnf"
      = some (ascii "[v3]\n" ++ ascii "1.2.3.1=ASN1:FORMAT:HEX,OCTETSTRING:00050003010203\n") ∧
    (WriteProofToConfig sampleWorld sampleFlagsConfig sampleFilesConf).2.contents "openssl.cnf"
      ≠ some (ascii "[v3]\n" ++ (ascii "1.2.3.1" ++ ascii "=DER:" ++ [1, 2, 3] ++ ascii "\n")) ∧
    ((((WriteProofToConfig sampleWorld sampleFlagsConfig sampleFilesConf).2.contents
      "openssl.cnf").getD []).drop (ascii "[v3]\n").length).take (ascii "1.2.3.1=DER:").length
      ≠ ascii "1.2.3.1=DER:" := by
  decide

theorem ascii_newline : ascii "\n" = [10] := by decide

theorem newline_not_mem_format : 10 ∉ ascii "=ASN1:FORMAT:HEX,OCTETSTRING:" := by decide

/-- C11, amended. For every SCT token that is read from --sct_token and wrapped
by `SCTToList`, with both flags set and the configuration file opened,
`WriteProofToConfig` returns and appends to the configuration file, after what
the file held, the embedded-proof extension OID, then
`=ASN1:FORMAT:HEX,OCTETSTRING:`, then the hexadecimal text of the one-element
SCT list holding the token, then a newline; no other file changes. When the OID
and the hexadecimal text hold no newline this is exactly one line. -/
theorem WriteProofToConfig_appends_line (w : World) (flags : Flags) (fs : FileSystem)
    (sct serialized_sct_list : Bytes)
    (htoken : flags.sct_token ≠ "")
    (hconf : flags.extensions_config_out ≠ "")
    (hread : fs.ReadBinaryFile flags.sct_token = some sct)
    (hlist : SCTToList w sct = some serialized_sct_list)
    (hopen : fs.writable flags.extensions_config_out = true) :
    let line := ascii w.kEmbeddedProofExtensionOID ++ ascii "=ASN1:FORMAT:HEX,OCTETSTRING:"
      ++ w.HexString serialized_sct_list ++ ascii "\n"
    (WriteProofToConfig w flags fs).1 = some () ∧
    (WriteProofToConfig w flags fs).2.contents flags.extensions_config_out
      = some ((fs.contents flags.extensions_config_out).getD [] ++ line) ∧
    (∀ path, path ≠ flags.extensions_config_out →
      (WriteProofToConfig w flags fs).2.contents path = fs.contents path) ∧
    (10 ∉ ascii w.kEmbeddedProofExtensionOID → 10 ∉ w.HexString serialized_sct_list →
      line.count 10 = 1 ∧ line.getLast? = some 10) := by
  intro line
  have hrun : WriteProofToConfig w flags fs
      = (some (), fs.append flags.extensions_config_out line) := by
    simp only [WriteProofToConfig, htoken, hconf, hread, hlist, hopen, if_false,
      not_true_eq_false, line]
  rw [hrun]
  refine ⟨rfl, ?_, ?_, ?_⟩
  · simp [FileSystem.append, FileSystem.write]
  · intro path hpath
    simp [FileSystem.append, FileSystem.write, hpath]
  · intro hoid hhex
    have h1 : (ascii w.kEmbeddedProofExtensionOID).count 10 = 0 := List.count_eq_zero.mpr hoid
    have h2 : (ascii "=ASN1:FORMAT:HEX,OCTETSTRING:").count 10 = 0 :=
      List.count_eq_zero.mpr newline_not_mem_format
    have h3 : (w.HexString serialized_sct_list).count 10 = 0 := List.count_eq_zero.mpr hhex
    constructor
    · simp only [line, List.count_append, h1, h2, h3, ascii_newline]
      simp
    · simp only [line, ascii_newline]
      simp

/-- Witness of the amended C11: the sample configuration file gains the line
for the token `[1, 2, 3]`. -/
theorem WriteProofToConfig_appends_line_witness :
    (WriteProofToConfig sampleWorld sampleFlagsConfig sampleFilesConf).2.contents "openssl.cnf"
      = some (ascii "[v3]\n" ++ ascii "1.2.3.1=ASN1:FORMAT:HEX,OCTETSTRING:00050003010203\n") :=
  ((WriteProofToConfig_appends_line sampleWorld sampleFlagsConfig sampleFilesConf [1, 2, 3]
    [0, 5, 0, 3, 1, 2, 3] (by decide) (by decide) (by decide) (by decide) rfl).2.1).trans
    (by decide)

/-! ## `audit` on a client state that cannot be audited -/

/-- C12. For a stored client state that lacks a reconstructed entry or holds no
AttachedSctInfo, `Audit` returns no AuditResult: it aborts on a CHECK before
any call on the log client, the connection attempt included, so the outcome is
an abort and neither SERVER_UNAVAILABLE nor PROOF_NOT_FOUND, whether or not the
log server can be reached. -/
theorem Audit_aborts_on_unauditable_state (w : World) (flags : Flags) (fs : FileSystem)
    (data : Bytes) (ct_data : SSLClientCTData)
    (hread : fs.ReadBinaryFile flags.ssl_client_ct_data_in = some data)
    (hparse : w.ParseFromString data = some ct_data)
    (hbad : ct_data.has_reconstructed_entry = false ∨ ct_data.attached_sct_info_size = 0) :
    (Audit w flags fs).result = none ∧
    (Audit w flags fs).events = [] ∧
    Event.Connect ∉ (Audit w flags fs).events ∧
    (Audit w flags fs).result ≠ some AuditResult.CT_SERVER_UNAVAILABLE ∧
    (Audit w flags fs).result ≠ some AuditResult.PROOF_NOT_FOUND := by
  have hrun : Audit w flags fs = { result := none, events := [] } := by
    cases hentry : ct_data.reconstructed_entry with
    | none => simp [Audit, hread, hparse, hentry]
    | some entry =>
      rcases hbad with h | h
      · simp [SSLClientCTData.has_reconstructed_entry, hentry] at h
      · simp [Audit, hread, hparse, hentry, h]
  rw [hrun]
  simp

/-- Witness of C12: a stored client state without any SCT and an unreachable
log server; `Audit` aborts without a connection attempt. -/
theorem Audit_aborts_on_unauditable_state_witness :
    (sampleWorldEmptyDown.LogClient sampleFlags.ct_server sampleFlags.ct_server_port).Connect
      = false ∧
    (Audit sampleWorldEmptyDown sampleFlags sampleFiles).result = none ∧
    (Audit sampleWorldEmptyDown sampleFlags sampleFiles).events = [] :=
  have h := Audit_aborts_on_unauditable_state sampleWorldEmptyDown sampleFlags sampleFiles [1]
    sampleCTDataEmpty rfl rfl (Or.inr rfl)
  ⟨rfl, h.1, h.2.1⟩

end CertTrans
